import Mathlib

/-!
Shallow embedding of the core of `redis.go` (a Go client for the redis
key-value store): the reply decoder (`readBulk`, `readResponse`), the
command encoder and connection-pool round trip (`sendCommand`), the
typed wrappers `Get` and `Hgetall`, and the structural marshaler
(`valueToString`, `containerToString`, `writeTo`, `writeToContainer`).

Go strings and byte slices are modelled as lists of byte values
(`GoStr := List Nat`); `len` is list length, so arbitrary binary
payloads (including embedded CR/LF) are representable.  Machine
integers (`int`, `int64`) are modelled as unbounded `Int`, unsigned
ones as `Nat`.  The I/O stream feeding `bufio.Reader` is the list of
bytes not yet consumed; end of stream while a reply is in progress is
the distinguished error `GoErr.eof` (Go's `os.EOF`).
-/

/-- Byte strings: Go `string` / `[]byte` as a list of byte values. -/
abbrev GoStr : Type := List Nat

/-- Embed an ASCII Lean string literal as a `GoStr` (code points = bytes). -/
def asciiStr (s : String) : GoStr := s.data.map Char.toNat

/-- The two-byte line terminator CR LF. -/
def crlf : GoStr := [13, 10]

/-- Go `unicode.IsSpace` restricted to ASCII, as used by `strings.TrimSpace`. -/
def isSpaceByte (c : Nat) : Bool :=
  c = 32 || c = 9 || c = 10 || c = 11 || c = 12 || c = 13

/-- Go `strings.TrimSpace`: drop leading and trailing whitespace bytes. -/
def trimSpace (s : GoStr) : GoStr :=
  ((s.dropWhile isSpaceByte).reverse.dropWhile isSpaceByte).reverse

/-- Go `strings.HasPrefix`. -/
def hasPre (pat s : GoStr) : Bool := List.isPrefixOf pat s

/-- Go `bufio.Reader.ReadString('\n')` over the remaining stream: returns the
line read (including the terminating LF when one was found), the rest of the
stream, and `some GoErr.eof` when the stream ended before a LF (in which case
the partial data is also returned, as in Go). -/
def readStringNL : List Nat → List Nat × List Nat × Bool
  | [] => ([], [], true)
  | c :: rest =>
    if c = 10 then ([c], rest, false)
    else
      let r := readStringNL rest
      (c :: r.1, r.2.1, r.2.2)

/-- Decimal digit run of `n`, most significant first, accumulated onto `acc`;
`fuel ≥ n` makes the recursion total (each step divides `n` by 10). -/
def natToDecAux : Nat → Nat → GoStr → GoStr
  | 0, _, acc => acc
  | fuel + 1, n, acc =>
    if n = 0 then acc else natToDecAux fuel (n / 10) ((48 + n % 10) :: acc)

/-- Decimal representation of a natural number, as produced by Go
`strconv.Uitoa` / the `%d` verb. -/
def natToDec (n : Nat) : GoStr :=
  if n = 0 then [48] else natToDecAux n n []

/-- Go `strconv.Itoa` / `strconv.Itoa64`: optional minus sign then digits. -/
def itoa (i : Int) : GoStr :=
  if i < 0 then 45 :: natToDec i.natAbs else natToDec i.toNat

/-- Go `strconv.Uitoa` / `strconv.Uitoa64`. -/
def uitoa (n : Nat) : GoStr := natToDec n

/-- Left-to-right accumulation of decimal digit bytes; `none` on the first
non-digit byte (Go `strconv` returns an error there). -/
def parseDigits : GoStr → Nat → Option Nat
  | [], acc => some acc
  | c :: cs, acc =>
    if 48 ≤ c ∧ c ≤ 57 then parseDigits cs (acc * 10 + (c - 48)) else none

/-- Go `strconv.Atoui` / `Atoui64`: nonempty digit run, no sign. -/
def atoui (s : GoStr) : Option Nat :=
  match s with
  | [] => none
  | _ :: _ => parseDigits s 0

/-- Go `strconv.Atoi` / `Atoi64`: optional `+`/`-` sign then a nonempty digit
run; `none` models the `os.Error` result. -/
def atoi (s : GoStr) : Option Int :=
  match s with
  | [] => none
  | c :: rest =>
    if c = 43 then (atoui rest).map Int.ofNat
    else if c = 45 then (atoui rest).map (fun n => -(n : Int))
    else (atoui s).map Int.ofNat

/-- Go `strconv.Atoi` with its Go-style `(value, err)` result: on a parse
error the value is `0` and the error flag is set. -/
def atoiGo (s : GoStr) : Int × Bool :=
  match atoi s with
  | some n => (n, false)
  | none => (0, true)

/-- Go `strconv.Atob`. -/
def atob (s : GoStr) : Option Bool :=
  if s = asciiStr "1" ∨ s = asciiStr "t" ∨ s = asciiStr "T" ∨
     s = asciiStr "true" ∨ s = asciiStr "TRUE" ∨ s = asciiStr "True" then some true
  else if s = asciiStr "0" ∨ s = asciiStr "f" ∨ s = asciiStr "F" ∨
     s = asciiStr "false" ∨ s = asciiStr "FALSE" ∨ s = asciiStr "False" then some false
  else none

/-- Errors flowing through the client, mirroring Go's `os.Error` values:
`eof` is the distinguished `os.EOF`; `redis msg` is `RedisError(msg)`;
`io code` stands for any other I/O error (write failure, connect failure,
…); `parse` is a `strconv` conversion error; `convPanic` marks a Go
runtime panic from a failed unchecked type assertion. -/
inductive GoErr : Type
  | eof : GoErr
  | redis (msg : GoStr) : GoErr
  | io (code : Nat) : GoErr
  | parse : GoErr
  | convPanic : GoErr
deriving DecidableEq

/-- The dynamically typed reply value (`interface{}`) returned by
`readResponse`: a status string, an integer, a bulk payload, or a
multi-bulk list of payloads. -/
inductive Reply : Type
  | status (s : GoStr) : Reply
  | int (n : Int) : Reply
  | bulk (b : GoStr) : Reply
  | multi (xs : List GoStr) : Reply
deriving DecidableEq

/-- Body of `readBulk` once the header line `head` is in hand (`redis.go`
lines 599-611): require the `$` tag, parse the length (the parse error is
computed but then overwritten by the `ioutil.ReadAll` result, exactly as in
the source), map length `-1` to the not-found error, and otherwise read
`length` bytes from the stream (`io.LimitReader` reads at most that many,
and treats a nonpositive limit as zero). -/
def readBulkWithHead (head : GoStr) (stream : List Nat) :
    Except GoErr (GoStr × List Nat) :=
  match head with
  | [] => .error (.redis (asciiStr "Expecting Prefix '$'"))
  | c :: t =>
    if c ≠ 36 then .error (.redis (asciiStr "Expecting Prefix '$'"))
    else
      let size := (atoiGo (trimSpace t)).1
      if size = -1 then .error (.redis (asciiStr "Key does not exist "))
      else .ok (stream.take size.toNat, stream.drop size.toNat)

/-- `readBulk` (`redis.go` 588-612): when no header line is supplied, read
one from the stream first (an end of stream there is returned as the error). -/
def readBulk (stream : List Nat) (head : GoStr) : Except GoErr (GoStr × List Nat) :=
  if head = [] then
    match readStringNL stream with
    | (_, _, true) => .error .eof
    | (line, rest, false) => readBulkWithHead line rest
  else readBulkWithHead head stream

/-- The blank-line-skipping loop at the top of `readResponse` (`redis.go`
620-629): read lines until one is nonblank after trimming; any read failure
(end of stream) aborts.  Structured with fuel so the definition computes;
each successful line read consumes at least one byte, so `stream.length + 1`
units of fuel always suffice. -/
def skipBlankAux : Nat → List Nat → Except GoErr (GoStr × List Nat)
  | 0, _ => .error .eof
  | fuel + 1, stream =>
    match readStringNL stream with
    | (_, _, true) => .error .eof
    | (line, rest, false) =>
      let t := trimSpace line
      if t = [] then skipBlankAux fuel rest else .ok (t, rest)

/-- Read lines until the first nonblank one, returning it trimmed. -/
def skipBlank (stream : List Nat) : Except GoErr (GoStr × List Nat) :=
  skipBlankAux (stream.length + 1) stream

/-- The element loop of the multi-bulk branch of `readResponse` (`redis.go`
656-667): read `n` bulk replies, each followed by one terminator line; any
element-level error (including the length `-1` not-found error) aborts the
whole loop and is returned as the error of the whole reply. -/
def readMulti : Nat → List Nat → Except GoErr (List GoStr × List Nat)
  | 0, stream => .ok ([], stream)
  | n + 1, stream =>
    match readBulk stream [] with
    | .error e => .error e
    | .ok (b, s1) =>
      match readStringNL s1 with
      | (_, _, true) => .error .eof
      | (_, s2, false) =>
        match readMulti n s2 with
        | .error e => .error e
        | .ok (bs, s3) => .ok (b :: bs, s3)

/-- `readResponse` (`redis.go` 614-672): skip blank lines, then dispatch on
the first byte of the line: `+` status, `-ERR ` server error, `:` integer,
`*` multi-bulk, and otherwise fall back to treating the line as a bulk
header. -/
def readResponse (stream : List Nat) : Except GoErr (Reply × List Nat) :=
  match skipBlank stream with
  | .error e => .error e
  | .ok (line, rest) =>
    match line with
    | [] => .error .eof
    | c :: t =>
      if c = 43 then .ok (.status (trimSpace t), rest)
      else if hasPre (asciiStr "-ERR ") line then
        .error (.redis (trimSpace (line.drop 5)))
      else if c = 58 then
        match atoiGo (trimSpace t) with
        | (_, true) => .error (.redis (asciiStr "Int reply is not a number"))
        | (n, false) => .ok (.int n, rest)
      else if c = 42 then
        match atoiGo (trimSpace t) with
        | (_, true) => .error (.redis (asciiStr "MultiBulk reply expected a number"))
        | (size, false) =>
          if size ≤ 0 then .ok (.multi [], rest)
          else
            match readMulti size.toNat rest with
            | .error e => .error e
            | .ok (xs, s2) => .ok (.multi xs, s2)
      else
        match readBulk rest line with
        | .error e => .error e
        | .ok (b, s2) => .ok (.bulk b, s2)

deriving instance DecidableEq for Except

/-- Request-frame encoding done at the top of `sendCommand` (`redis.go`
723-726): a `bytes.Buffer` seeded with
`fmt.Sprintf("*%d\r\n$%d\r\n%s\r\n", len(args)+1, len(cmd), cmd)` and then,
for each argument in order, `fmt.Sprintf("$%d\r\n%s\r\n", len(s), s)`
appended.  `*` is byte 42 and `$` is byte 36. -/
def encodeRequest (cmd : GoStr) (args : List GoStr) : GoStr :=
  args.foldl
    (fun buf s => buf ++ ([36] ++ natToDec s.length ++ crlf ++ s ++ crlf))
    ([42] ++ natToDec (args.length + 1) ++ crlf ++
       [36] ++ natToDec cmd.length ++ crlf ++ cmd ++ crlf)

/-- Modelled from the spec's wire-format sentence, for comparison with
`encodeRequest`: a count prefix equal to argument count + 1, then each token
(operation name first, then the arguments in order) length-prefixed as
`$<byteLength>\r\n<bytes>\r\n`. -/
def specRequestFrame (cmd : GoStr) (args : List GoStr) : GoStr :=
  [42] ++ natToDec (1 + args.length) ++ crlf ++
    (cmd :: args).flatMap (fun t => [36] ++ natToDec t.length ++ crlf ++ t ++ crlf)

/-- A live TCP connection handle (`*net.TCPConn`), identified abstractly. -/
structure Conn : Type where
  id : Nat
deriving DecidableEq

/-- The pool size constant `MaxPoolSize` (`redis.go` 562). -/
def MaxPoolSize : Nat := 5

/-- The pool contents right after `init()` (`redis.go` 579-585): the channel
holds `MaxPoolSize` nil placeholders. -/
def initPool : List (Option Conn) := List.replicate MaxPoolSize none

/-- State threaded through a `sendCommand` call.  `pool` is the contents of
the `pool` channel, front = next value received.  The network is abstracted
into two oracle streams consumed in order: `opens` gives the successive
results of `openConnection()` (the returned `*net.TCPConn`, possibly nil,
and the returned error — note that a failed `SELECT` during open returns a
live connection together with an error), and `sends` gives the successive
results of `rawSend` (a decoded reply, or an error; `rawSend` returns a nil
reply exactly when it returns an error).  `written` records each frame
passed to `rawSend`, in order. -/
structure St : Type where
  pool : List (Option Conn)
  opens : List (Option Conn × Option GoErr)
  sends : List (Except GoErr Reply)
  written : List GoStr
deriving DecidableEq

/-- The part of `sendCommand` after a connection is in hand (`redis.go`
737-752): one `rawSend` of the frame; if its error is exactly `os.EOF`,
reopen once and resend the identical frame once; push the current
connection value (nil after a failed reopen) back onto the pool on every
path.  When an oracle stream is exhausted the outcome is a generic I/O
error, which no theorem's hypotheses reach. -/
def sendAttempt (frame : GoStr) (c : Option Conn) (prest : List (Option Conn))
    (opens : List (Option Conn × Option GoErr))
    (sends : List (Except GoErr Reply)) (written : List GoStr) :
    (Option Reply × Option GoErr) × St :=
  match sends with
  | [] => ((none, some (.io 0)), ⟨prest ++ [c], opens, [], written ++ [frame]⟩)
  | r :: srest =>
    match r with
    | .ok reply => ((some reply, none), ⟨prest ++ [c], opens, srest, written ++ [frame]⟩)
    | .error e =>
      match e with
      | .eof =>
        match opens with
        | [] => ((none, some (.io 0)), ⟨prest ++ [none], [], srest, written ++ [frame]⟩)
        | (copt, oerr) :: orest =>
          match oerr with
          | some e2 => ((none, some e2), ⟨prest ++ [copt], orest, srest, written ++ [frame]⟩)
          | none =>
            match srest with
            | [] => ((none, some (.io 0)),
                ⟨prest ++ [copt], orest, [], written ++ [frame, frame]⟩)
            | r2 :: srest2 =>
              match r2 with
              | .ok reply => ((some reply, none),
                  ⟨prest ++ [copt], orest, srest2, written ++ [frame, frame]⟩)
              | .error e2 => ((none, some e2),
                  ⟨prest ++ [copt], orest, srest2, written ++ [frame, frame]⟩)
      | _ => ((none, some e), ⟨prest ++ [c], opens, srest, written ++ [frame]⟩)

/-- `sendCommand` (`redis.go` 722-753): encode the frame, receive a slot
value from the pool (an empty pool means the Go call blocks; the model
returns the state unchanged there, and theorems assume a nonempty pool),
open a connection if the slot holds the nil placeholder (an open error jumps
to `End`), then run the attempt/retry body; `End` pushes the slot value back. -/
def sendCommand (cmd : GoStr) (args : List GoStr) (st : St) :
    (Option Reply × Option GoErr) × St :=
  let frame := encodeRequest cmd args
  match st.pool with
  | [] => ((none, none), st)
  | c0 :: prest =>
    match c0 with
    | some c => sendAttempt frame (some c) prest st.opens st.sends st.written
    | none =>
      match st.opens with
      | [] => ((none, some (.io 0)), ⟨prest ++ [none], [], st.sends, st.written⟩)
      | (copt, oerr) :: orest =>
        match oerr with
        | some e => ((none, some e), ⟨prest ++ [copt], orest, st.sends, st.written⟩)
        | none => sendAttempt frame copt prest orest st.sends st.written

/-- `Get` (`redis.go` 906-915): issue `GET key`, discard the error, and
return the fixed not-found `RedisError` whenever the reply value is nil;
otherwise cast the reply to `[]byte` (a non-bulk reply would make the Go
type assertion panic). -/
def Get (key : GoStr) (st : St) : Except GoErr GoStr × St :=
  match sendCommand (asciiStr "GET") [key] st with
  | ((res, _), st') =>
    match res with
    | none => (.error (.redis (asciiStr "Key `" ++ key ++ asciiStr "` does not exist")), st')
    | some (.bulk b) => (.ok b, st')
    | some _ => (.error .convPanic, st')

/-- The scalar field types of the marshaler that the claims exercise
(Go `bool`, `int`, `int64`, `uint`, `uint64`, `string`, `[]byte`). -/
inductive FType : Type
  | tb | ti | ti64 | tu | tu64 | ts | tbytes
deriving DecidableEq

/-- A field value of one of the modelled scalar types. -/
inductive FieldVal : Type
  | vb (x : Bool) : FieldVal
  | vi (x : Int) : FieldVal
  | vi64 (x : Int) : FieldVal
  | vu (x : Nat) : FieldVal
  | vu64 (x : Nat) : FieldVal
  | vs (x : GoStr) : FieldVal
  | vbytes (x : GoStr) : FieldVal
deriving DecidableEq

/-- The reflected type of a field value. -/
def FieldVal.typeOf : FieldVal → FType
  | .vb _ => .tb
  | .vi _ => .ti
  | .vi64 _ => .ti64
  | .vu _ => .tu
  | .vu64 _ => .tu64
  | .vs _ => .ts
  | .vbytes _ => .tbytes

/-- One declared field of a fixed-shape record (`reflect.StructValue`
field): its name and current value. -/
structure RecField : Type where
  name : GoStr
  val : FieldVal
deriving DecidableEq

/-- `valueToString` (`redis.go` 1456-1510) restricted to the modelled field
types, on which it never returns an error: booleans print as
`true`/`false`, integers via `Itoa`/`Itoa64`, unsigned via
`Uitoa`/`Uitoa64`, strings and byte slices pass through verbatim. -/
def valueToString : FieldVal → GoStr
  | .vb true => asciiStr "true"
  | .vb false => asciiStr "false"
  | .vi i => itoa i
  | .vi64 i => itoa i
  | .vu n => uitoa n
  | .vu64 n => uitoa n
  | .vs s => s
  | .vbytes b => b

/-- The `StructValue` case of `containerToString` (`redis.go` 1530-1540):
push each field's name then its encoded value, in declaration order. -/
def containerToString (fields : List RecField) : List GoStr :=
  fields.flatMap (fun f => [f.name, valueToString f.val])

/-- `writeTo` (`redis.go` 1619-1724) on the modelled field types: coerce the
wire bytes into the field's type; on a `strconv` failure return the error
and leave the field unchanged; strings and byte slices always succeed. -/
def writeTo (data : GoStr) (v : FieldVal) : Option GoErr × FieldVal :=
  match v with
  | .vb _ =>
    match atob data with
    | some b => (none, .vb b)
    | none => (some .parse, v)
  | .vi _ =>
    match atoi data with
    | some i => (none, .vi i)
    | none => (some .parse, v)
  | .vi64 _ =>
    match atoi data with
    | some i => (none, .vi64 i)
    | none => (some .parse, v)
  | .vu _ =>
    match atoui data with
    | some n => (none, .vu n)
    | none => (some .parse, v)
  | .vu64 _ =>
    match atoui data with
    | some n => (none, .vu64 n)
    | none => (some .parse, v)
  | .vs _ => (none, .vs data)
  | .vbytes _ => (none, .vbytes data)

/-- `reflect.StructValue.FieldByName` followed by the (discarded-result)
`writeTo` call of `redis.go` 1746-1750: update the first field with the
given name, dropping `writeTo`'s error component, and do nothing when no
field has that name. -/
def setFieldByName (fields : List RecField) (key data : GoStr) : List RecField :=
  match fields with
  | [] => []
  | f :: fs =>
    if f.name = key then { f with val := (writeTo data f.val).2 } :: fs
    else f :: setFieldByName fs key data

/-- The `StructValue` loop of `writeToContainer` (`redis.go` 1743-1751):
walk the flat sequence two tokens at a time (`len(data)/2` iterations, an
odd trailing token is ignored); each pair names a field and overwrites it. -/
def writeToContainerStruct (data : List GoStr) (fields : List RecField) : List RecField :=
  match data with
  | k :: v :: rest => writeToContainerStruct rest (setFieldByName fields k v)
  | _ => fields

/-- `writeToContainer` (`redis.go` 1726-1756) on a struct target: runs the
field loop and returns nil — the per-field `writeTo` errors are discarded,
as in the source. -/
def writeToContainer (data : List GoStr) (fields : List RecField) :
    Option GoErr × List RecField :=
  (none, writeToContainerStruct data fields)

/-- `Hgetall` (`redis.go` 1759-1771) with a struct target: issue
`HGETALL key`, propagate any call error, cast the reply to `[][]byte` (a
non-multi-bulk reply would make the Go type assertion panic), and run
`writeToContainer` on the flat sequence. -/
def Hgetall (key : GoStr) (fields : List RecField) (st : St) :
    Option GoErr × List RecField × St :=
  match sendCommand (asciiStr "HGETALL") [key] st with
  | ((res, err), st') =>
    match err with
    | some e => (some e, fields, st')
    | none =>
      match res with
      | some (.multi data) =>
        match writeToContainer data fields with
        | (werr, fields') => (werr, fields', st')
      | _ => (some .convPanic, fields, st')

/-- The keys (even positions) of a flat key/value token sequence. -/
def evenKeys : List GoStr → List GoStr
  | k :: _ :: rest => k :: evenKeys rest
  | _ => []

/-- A sample fixed-shape record with five fields of distinct scalar types. -/
def sampleRec : List RecField :=
  [⟨asciiStr "A", .vb true⟩, ⟨asciiStr "B", .vi (-7)⟩, ⟨asciiStr "C", .vu 42⟩,
   ⟨asciiStr "D", .vs (asciiStr "hi")⟩, ⟨asciiStr "E", .vbytes [0, 13, 10]⟩]

/-- The zero value of `sampleRec`'s record shape. -/
def sampleZero : List RecField :=
  [⟨asciiStr "A", .vb false⟩, ⟨asciiStr "B", .vi 0⟩, ⟨asciiStr "C", .vu 0⟩,
   ⟨asciiStr "D", .vs []⟩, ⟨asciiStr "E", .vbytes []⟩]

/-! ### Correctness of the decimal encode/parse pair

`natToDec` produces the base-10 digit bytes of a number and
`parseDigits`/`atoui`/`atoi` read them back; these lemmas establish the
round trip used by the marshaler claims. -/

lemma natToDecAux_eq (fuel : Nat) : ∀ (n : Nat) (acc : GoStr), n ≤ fuel →
    natToDecAux fuel n acc = ((Nat.digits 10 n).reverse.map (fun d => 48 + d)) ++ acc := by
  induction fuel with
  | zero =>
    intro n acc h
    interval_cases n
    simp [natToDecAux]
  | succ fuel ih =>
    intro n acc h
    by_cases hn : n = 0
    · subst hn; simp [natToDecAux]
    · rw [natToDecAux, if_neg hn, ih (n / 10) _ (by omega),
        Nat.digits_def' (by norm_num : (1:Nat) < 10) (Nat.pos_of_ne_zero hn)]
      simp

lemma natToDec_eq (n : Nat) :
    natToDec n = if n = 0 then [48] else (Nat.digits 10 n).reverse.map (fun d => 48 + d) := by
  unfold natToDec
  by_cases hn : n = 0
  · simp [hn]
  · rw [if_neg hn, if_neg hn, natToDecAux_eq n n [] (le_refl n), List.append_nil]

lemma natToDec_mem (n : Nat) : ∀ c ∈ natToDec n, 48 ≤ c ∧ c ≤ 57 := by
  intro c hc
  rw [natToDec_eq] at hc
  by_cases hn : n = 0
  · simp [hn] at hc; omega
  · rw [if_neg hn] at hc
    simp only [List.mem_map, List.mem_reverse] at hc
    obtain ⟨d, hd, rfl⟩ := hc
    have := Nat.digits_lt_base (by norm_num) hd
    omega

lemma natToDec_ne_nil (n : Nat) : natToDec n ≠ [] := by
  rw [natToDec_eq]
  by_cases hn : n = 0
  · simp [hn]
  · rw [if_neg hn]
    simp [Nat.digits_ne_nil_iff_ne_zero, hn]

lemma parseDigits_map (l : List Nat) : ∀ acc : Nat, (∀ d ∈ l, d < 10) →
    parseDigits (l.map (fun d => 48 + d)) acc
      = some (l.foldl (fun a d => a * 10 + d) acc) := by
  induction l with
  | nil => intro acc _; simp [parseDigits]
  | cons d l ih =>
    intro acc h
    have hd : d < 10 := h d (by simp)
    simp only [List.map_cons, parseDigits, List.foldl_cons]
    rw [if_pos (by omega)]
    have h48 : 48 + d - 48 = d := by omega
    rw [h48]
    exact ih _ (fun x hx => h x (by simp [hx]))

lemma foldl_reverse_ofDigits (l : List Nat) : ∀ acc : Nat,
    l.reverse.foldl (fun a d => a * 10 + d) acc
      = acc * 10 ^ l.length + Nat.ofDigits 10 l := by
  induction l with
  | nil => intro acc; simp [Nat.ofDigits]
  | cons d l ih =>
    intro acc
    simp only [List.reverse_cons, List.foldl_append, List.foldl_cons, List.foldl_nil,
      ih acc, Nat.ofDigits_cons, List.length_cons]
    ring

lemma atoui_eq_parseDigits (s : GoStr) (h : s ≠ []) : atoui s = parseDigits s 0 := by
  cases s with
  | nil => exact absurd rfl h
  | cons c t => rfl

lemma atoui_natToDec (n : Nat) : atoui (natToDec n) = some n := by
  by_cases hn : n = 0
  · subst hn; decide
  · rw [natToDec_eq, if_neg hn,
      atoui_eq_parseDigits _ (by simp [Nat.digits_ne_nil_iff_ne_zero, hn]),
      parseDigits_map _ 0
        (fun d hd => Nat.digits_lt_base (by norm_num) (List.mem_reverse.mp hd)),
      foldl_reverse_ofDigits, Nat.ofDigits_digits]
    simp

lemma atoi_cons (c : Nat) (rest : GoStr) :
    atoi (c :: rest) = if c = 43 then (atoui rest).map Int.ofNat
      else if c = 45 then (atoui rest).map (fun n => -(n : Int))
      else (atoui (c :: rest)).map Int.ofNat := rfl

lemma atoi_itoa (i : Int) : atoi (itoa i) = some i := by
  by_cases hi : i < 0
  · rw [itoa, if_pos hi, atoi_cons, if_neg (by omega), if_pos rfl, atoui_natToDec]
    show some (-(i.natAbs : Int)) = some i
    congr 1
    omega
  · rw [itoa, if_neg hi]
    obtain ⟨c, t, hct⟩ := List.exists_cons_of_ne_nil (natToDec_ne_nil i.toNat)
    have hc : 48 ≤ c ∧ c ≤ 57 := natToDec_mem _ c (by rw [hct]; exact List.mem_cons_self c t)
    rw [hct, atoi_cons, if_neg (by omega), if_neg (by omega), ← hct, atoui_natToDec]
    show some (Int.ofNat i.toNat) = some i
    exact congrArg some (Int.toNat_of_nonneg (not_lt.mp hi))

/-! ### The marshaler round trip (Flatten then Unflatten) -/

lemma atob_true : atob (asciiStr "true") = some true := by decide

lemma atob_false : atob (asciiStr "false") = some false := by decide

lemma writeTo_valueToString (v w : FieldVal) (h : v.typeOf = w.typeOf) :
    writeTo (valueToString v) w = (none, v) := by
  cases v <;> cases w <;> simp [FieldVal.typeOf] at h
  case vb.vb x y => cases x <;> simp [valueToString, writeTo, atob_true, atob_false]
  case vi.vi x y => simp [valueToString, writeTo, atoi_itoa]
  case vi64.vi64 x y => simp [valueToString, writeTo, atoi_itoa]
  case vu.vu x y => simp [valueToString, writeTo, uitoa, atoui_natToDec]
  case vu64.vu64 x y => simp [valueToString, writeTo, uitoa, atoui_natToDec]
  case vs.vs x y => rfl
  case vbytes.vbytes x y => rfl

lemma evenKeys_containerToString (r : List RecField) (tail : List GoStr) :
    evenKeys (containerToString r ++ tail) = r.map RecField.name ++ evenKeys tail := by
  induction r with
  | nil => simp [containerToString]
  | cons f r ih =>
    simp only [containerToString, List.flatMap_cons, List.map_cons]
    simp only [containerToString] at ih
    simp [evenKeys, ih]

lemma setFieldByName_notfound (fields : List RecField) (key data : GoStr)
    (h : key ∉ fields.map RecField.name) :
    setFieldByName fields key data = fields := by
  induction fields with
  | nil => rfl
  | cons f fs ih =>
    simp only [List.map_cons, List.mem_cons] at h
    push_neg at h
    rw [setFieldByName, if_neg (fun he => h.1 he.symm), ih h.2]

lemma writeToContainerStruct_skip : ∀ (data : List GoStr) (f : RecField) (fs : List RecField),
    (∀ k ∈ evenKeys data, k ≠ f.name) →
    writeToContainerStruct data (f :: fs) = f :: writeToContainerStruct data fs
  | [], _, _, _ => rfl
  | [_], _, _, _ => rfl
  | k :: v :: rest, f, fs, h => by
    have hk : k ≠ f.name := h k (List.mem_cons_self k (evenKeys rest))
    have hrest : ∀ k' ∈ evenKeys rest, k' ≠ f.name := fun k' hk' =>
      h k' (List.mem_cons_of_mem k hk')
    show writeToContainerStruct rest (setFieldByName (f :: fs) k v)
        = f :: writeToContainerStruct rest (setFieldByName fs k v)
    rw [setFieldByName, if_neg (fun he => hk he.symm)]
    exact writeToContainerStruct_skip rest f (setFieldByName fs k v) hrest

lemma writeToContainerStruct_roundtrip_core :
    ∀ (r z : List RecField) (tail : List GoStr),
    r.map RecField.name = z.map RecField.name →
    (r.map fun f => f.val.typeOf) = (z.map fun f => f.val.typeOf) →
    (r.map RecField.name).Nodup →
    (∀ k ∈ evenKeys tail, k ∉ r.map RecField.name) →
    writeToContainerStruct (containerToString r ++ tail) z
      = writeToContainerStruct tail r
  | [], z, tail, h1, _, _, _ => by
    cases z with
    | nil => simp [containerToString]
    | cons g z' => simp at h1
  | f :: r', z, tail, h1, h2, h3, h4 => by
    cases z with
    | nil => simp at h1
    | cons g z' =>
      simp only [List.map_cons, List.cons.injEq] at h1 h2
      obtain ⟨hname, h1'⟩ := h1
      obtain ⟨htype, h2'⟩ := h2
      simp only [List.map_cons, List.nodup_cons] at h3
      obtain ⟨hnotin, h3'⟩ := h3
      have hstep : containerToString (f :: r') ++ tail
          = f.name :: valueToString f.val :: (containerToString r' ++ tail) := by
        simp [containerToString]
      rw [hstep]
      show writeToContainerStruct (containerToString r' ++ tail)
            (setFieldByName (g :: z') f.name (valueToString f.val))
          = writeToContainerStruct tail (f :: r')
      rw [setFieldByName, if_pos hname.symm,
        writeTo_valueToString f.val g.val htype]
      have hkeys : ∀ k ∈ evenKeys (containerToString r' ++ tail), k ≠ f.name := by
        intro k hk
        rw [evenKeys_containerToString] at hk
        rcases List.mem_append.mp hk with hk' | hk'
        · exact fun he => hnotin (he ▸ hk')
        · intro he
          exact (h4 k hk') (by simp [he])
      have heta : ({ name := g.name, val := f.val } : RecField) = f := by
        cases f; cases g; simp at hname ⊢; exact hname.symm
      rw [heta, writeToContainerStruct_skip _ f z' hkeys,
        writeToContainerStruct_roundtrip_core r' z' tail h1' h2' h3'
          (fun k hk => fun hmem => h4 k hk (List.mem_cons_of_mem _ hmem)),
        ← writeToContainerStruct_skip tail f r'
          (fun k hk => fun he => h4 k hk (he ▸ List.mem_cons_self _ _))]

/-- C8: flattening a fixed-shape record (fields of supported scalar or
byte-sequence types, here bool/int/uint/string/bytes) and unflattening the
produced key/value sequence into a zero record of the same shape reproduces
the original field values exactly, and appending one extra pair whose key
matches no declared field leaves the decoded record unchanged with no
error. -/
theorem flatten_unflatten_roundtrip (r z : List RecField) (k v : GoStr)
    (h1 : r.map RecField.name = z.map RecField.name)
    (h2 : (r.map fun f => f.val.typeOf) = (z.map fun f => f.val.typeOf))
    (h3 : (r.map RecField.name).Nodup)
    (hk : k ∉ r.map RecField.name) :
    writeToContainer (containerToString r) z = (none, r) ∧
    writeToContainer (containerToString r ++ [k, v]) z = (none, r) := by
  constructor
  · rw [writeToContainer]
    have h := writeToContainerStruct_roundtrip_core r z [] h1 h2 h3 (by simp [evenKeys])
    rw [List.append_nil] at h
    rw [h]
    rfl
  · rw [writeToContainer]
    have h := writeToContainerStruct_roundtrip_core r z [k, v] h1 h2 h3 (by
      intro k' hk'
      have hkk : k' = k := by simpa [evenKeys] using hk'
      subst hkk
      exact hk)
    rw [h]
    show (none, setFieldByName r k v) = ((none : Option GoErr), r)
    rw [setFieldByName_notfound r k v hk]

/-- Witness for C8 at a concrete five-field record with distinct field
names. -/
theorem flatten_unflatten_roundtrip_witness :
    ((sampleRec.map RecField.name).Nodup ∧ asciiStr "F" ∉ sampleRec.map RecField.name) ∧
    writeToContainer (containerToString sampleRec ++ [asciiStr "F", asciiStr "x"]) sampleZero
      = (none, sampleRec) :=
  ⟨⟨by decide, by decide⟩,
    (flatten_unflatten_roundtrip sampleRec sampleZero (asciiStr "F") (asciiStr "x")
      (by decide) (by decide) (by decide) (by decide)).2⟩

/-! ### Claim theorems on the connection pool, the decoder and the encoder -/

lemma sendAttempt_pool (frame : GoStr) (c : Option Conn) (prest : List (Option Conn))
    (opens : List (Option Conn × Option GoErr)) (sends : List (Except GoErr Reply))
    (written : List GoStr) :
    ∃ ret, (sendAttempt frame c prest opens sends written).2.pool = prest ++ [ret] := by
  rcases sends with _ | ⟨r, srest⟩
  · exact ⟨c, rfl⟩
  cases r with
  | ok reply => exact ⟨c, rfl⟩
  | error e =>
    cases e with
    | eof =>
      rcases opens with _ | ⟨⟨copt, oerr⟩, orest⟩
      · exact ⟨none, rfl⟩
      rcases oerr with _ | e2
      · rcases srest with _ | ⟨r2, srest2⟩
        · exact ⟨copt, rfl⟩
        cases r2 with
        | ok reply => exact ⟨copt, rfl⟩
        | error e2 => exact ⟨copt, rfl⟩
      · exact ⟨copt, rfl⟩
    | redis msg => exact ⟨c, rfl⟩
    | io code => exact ⟨c, rfl⟩
    | parse => exact ⟨c, rfl⟩
    | convPanic => exact ⟨c, rfl⟩

/-- C4: a `sendCommand` call on a nonempty pool removes exactly one slot value
(the head of the queue) and, on every path — successful reply, connection-open
failure, first-attempt error, or retry failure — pushes exactly one value (a
live connection or the nil placeholder) back before returning, so the pool's
slot count is invariant; initialization creates `MaxPoolSize = 5` slots. -/
theorem sendCommand_pool_slot_invariant (cmd : GoStr) (args : List GoStr) (st : St)
    (h : st.pool ≠ []) :
    (∃ ret, (sendCommand cmd args st).2.pool = st.pool.tail ++ [ret]) ∧
    (sendCommand cmd args st).2.pool.length = st.pool.length ∧
    initPool.length = MaxPoolSize := by
  rcases hp : st.pool with _ | ⟨c0, prest⟩
  · exact absurd hp h
  have hmain : ∃ ret, (sendCommand cmd args st).2.pool = prest ++ [ret] := by
    rw [sendCommand, hp]
    rcases c0 with _ | c
    · rcases ho : st.opens with _ | ⟨⟨copt, oerr⟩, orest⟩
      · exact ⟨none, rfl⟩
      rcases oerr with _ | e
      · exact sendAttempt_pool _ _ _ _ _ _
      · exact ⟨copt, rfl⟩
    · exact sendAttempt_pool _ _ _ _ _ _
  refine ⟨by simpa [hp] using hmain, ?_, rfl⟩
  obtain ⟨ret, hret⟩ := hmain
  rw [hret]
  simp

/-- Witness for C4 at a concrete two-slot pool and a successful reply. -/
theorem sendCommand_pool_slot_invariant_witness :
    (([some ⟨0⟩, none] : List (Option Conn)) ≠ []) ∧
    ((∃ ret, (sendCommand (asciiStr "GET") [asciiStr "k"]
        ⟨[some ⟨0⟩, none], [], [.ok (.bulk [])], []⟩).2.pool
          = [none] ++ [ret]) ∧
      (sendCommand (asciiStr "GET") [asciiStr "k"]
        ⟨[some ⟨0⟩, none], [], [.ok (.bulk [])], []⟩).2.pool.length = 2 ∧
      initPool.length = MaxPoolSize) :=
  ⟨by decide, sendCommand_pool_slot_invariant (asciiStr "GET") [asciiStr "k"]
    ⟨[some ⟨0⟩, none], [], [.ok (.bulk [])], []⟩ (by decide)⟩

/-- C3 (amended): the transparent reconnect-and-resend is triggered exactly by
a first-attempt `rawSend` error equal to `os.EOF`: any other error (server
error, protocol error, or a non-EOF I/O failure) is returned to the caller
as-is with the frame written only once, while on `os.EOF` a fresh connection
is taken in the same slot and the identical encoded frame is written exactly
once more, any retry error being surfaced. -/
theorem sendCommand_retry_exactly_on_eof (cmd : GoStr) (args : List GoStr)
    (c c2 : Conn) (p : List (Option Conn))
    (opens : List (Option Conn × Option GoErr)) (e : GoErr)
    (sends : List (Except GoErr Reply)) (w : List GoStr) (r : Except GoErr Reply) :
    (e ≠ .eof →
      sendCommand cmd args ⟨some c :: p, opens, .error e :: sends, w⟩
        = ((none, some e),
           ⟨p ++ [some c], opens, sends, w ++ [encodeRequest cmd args]⟩)) ∧
    (sendCommand cmd args
        ⟨some c :: p, (some c2, none) :: opens, .error .eof :: r :: sends, w⟩
      = (match r with
         | .ok rep => ((some rep, none),
             ⟨p ++ [some c2], opens, sends,
              w ++ [encodeRequest cmd args, encodeRequest cmd args]⟩)
         | .error e2 => ((none, some e2),
             ⟨p ++ [some c2], opens, sends,
              w ++ [encodeRequest cmd args, encodeRequest cmd args]⟩))) := by
  constructor
  · intro he
    cases e with
    | eof => exact absurd rfl he
    | redis msg => rfl
    | io code => rfl
    | parse => rfl
    | convPanic => rfl
  · cases r with
    | ok rep => rfl
    | error e2 => rfl

/-- Witness for C3 (amended): a non-EOF I/O error on the first attempt is
surfaced unchanged with a single frame written. -/
theorem sendCommand_retry_exactly_on_eof_witness :
    ((GoErr.io 32 : GoErr) ≠ .eof) ∧
    (sendCommand (asciiStr "GET") [asciiStr "k"]
        ⟨[some ⟨0⟩], [], [.error (.io 32)], []⟩
      = ((none, some (.io 32)),
         ⟨[some ⟨0⟩], [], [], [encodeRequest (asciiStr "GET") [asciiStr "k"]]⟩)) :=
  ⟨by decide,
    by
      have h := (sendCommand_retry_exactly_on_eof (asciiStr "GET") [asciiStr "k"]
        ⟨0⟩ ⟨1⟩ [] [] (.io 32) [] [] (.ok (.bulk []))).1 (by decide)
      simpa using h⟩

/-- Counterexample to C3 as stated: a connection-class write/read failure that
is not `os.EOF` (here I/O error 32, broken pipe) does not trigger any
recovery — the available fresh connection in `opens` is never taken and the
frame is written exactly once — contradicting the claim that every
connection error triggers a reconnect-and-resend. -/
theorem sendCommand_io_error_not_retried :
    sendCommand (asciiStr "GET") [asciiStr "k"]
        ⟨[some ⟨0⟩], [(some ⟨1⟩, none)], [.error (.io 32)], []⟩
      = ((none, some (.io 32)),
         ⟨[some ⟨0⟩], [(some ⟨1⟩, none)], [],
          [encodeRequest (asciiStr "GET") [asciiStr "k"]]⟩) := by
  rfl

lemma sendAttempt_err_data_none (frame : GoStr) (c : Option Conn)
    (prest : List (Option Conn)) (opens : List (Option Conn × Option GoErr))
    (sends : List (Except GoErr Reply)) (written : List GoStr) (e : GoErr)
    (h : (sendAttempt frame c prest opens sends written).1.2 = some e) :
    (sendAttempt frame c prest opens sends written).1.1 = none := by
  rcases sends with _ | ⟨r, srest⟩
  · rfl
  cases r with
  | ok reply => simp [sendAttempt] at h
  | error e' =>
    cases e' with
    | eof =>
      rcases opens with _ | ⟨⟨copt, oerr⟩, orest⟩
      · rfl
      rcases oerr with _ | e2
      · rcases srest with _ | ⟨r2, srest2⟩
        · rfl
        cases r2 with
        | ok reply => simp [sendAttempt] at h
        | error e2 => rfl
      · rfl
    | redis msg => rfl
    | io code => rfl
    | parse => rfl
    | convPanic => rfl

lemma sendCommand_err_data_none (cmd : GoStr) (args : List GoStr) (st : St) (e : GoErr)
    (h : (sendCommand cmd args st).1.2 = some e) :
    (sendCommand cmd args st).1.1 = none := by
  rcases hp : st.pool with _ | ⟨c0, prest⟩
  · rw [sendCommand, hp]
  · rw [sendCommand, hp]
    rw [sendCommand, hp] at h
    rcases c0 with _ | c
    · rcases ho : st.opens with _ | ⟨⟨copt, oerr⟩, orest⟩
      · rfl
      rw [ho] at h
      rcases oerr with _ | e2
      · exact sendAttempt_err_data_none _ _ _ _ _ _ e h
      · rfl
    · exact sendAttempt_err_data_none _ _ _ _ _ _ e h

/-- C10: whenever `sendCommand` returns an error of any class for a GET, the
reply value is nil, so `Get` discards the error and reports the same
not-found error naming the key — a caller cannot distinguish a missing key
from a failed call. -/
theorem get_collapses_all_errors (key : GoStr) (st : St) (e : GoErr)
    (h : (sendCommand (asciiStr "GET") [key] st).1.2 = some e) :
    (Get key st).1
      = .error (.redis (asciiStr "Key `" ++ key ++ asciiStr "` does not exist")) := by
  have hd := sendCommand_err_data_none _ _ _ _ h
  rw [Get]
  rcases hsc : sendCommand (asciiStr "GET") [key] st with ⟨⟨res, err⟩, st'⟩
  rw [hsc] at hd
  simp only at hd
  rw [hd]

/-- Witness for C10 at a concrete connection-open failure. -/
theorem get_collapses_all_errors_witness :
    ((sendCommand (asciiStr "GET") [asciiStr "k"]
        ⟨[none], [(none, some (.io 7))], [], []⟩).1.2 = some (.io 7)) ∧
    (Get (asciiStr "k") ⟨[none], [(none, some (.io 7))], [], []⟩).1
      = .error (.redis (asciiStr "Key `" ++ asciiStr "k" ++ asciiStr "` does not exist")) :=
  ⟨by decide,
   get_collapses_all_errors (asciiStr "k") ⟨[none], [(none, some (.io 7))], [], []⟩
     (.io 7) (by decide)⟩

/-- C7: a `$-1` absent bulk reply decodes to the not-found error (never an
empty byte sequence), and a `Get` whose round trip produces that error
returns the not-found error naming the key — never a nil-error result with
an empty payload. -/
theorem get_absent_reports_not_found (key : GoStr) (c : Conn)
    (p : List (Option Conn)) (opens : List (Option Conn × Option GoErr))
    (sends : List (Except GoErr Reply)) (w : List GoStr) :
    readResponse (asciiStr "$-1\r\n")
      = .error (.redis (asciiStr "Key does not exist ")) ∧
    (Get key ⟨some c :: p, opens,
        .error (.redis (asciiStr "Key does not exist ")) :: sends, w⟩).1
      = .error (.redis (asciiStr "Key `" ++ key ++ asciiStr "` does not exist")) := by
  constructor
  · decide
  · rfl

/-- Reading a bulk whose header is the absent marker `$-1` yields the
not-found error, whatever follows in the stream. -/
lemma readBulk_absent_marker (rest : List Nat) :
    readBulk ((36 : Nat) :: 45 :: 49 :: 13 :: 10 :: rest) []
      = .error (.redis (asciiStr "Key does not exist ")) := by
  have h1 : readStringNL ((36 : Nat) :: 45 :: 49 :: 13 :: 10 :: rest)
      = ([36, 45, 49, 13, 10], rest, false) := by
    simp [readStringNL]
  have h2 : (atoiGo (trimSpace [45, 49, 13, 10])).1 = -1 := by decide
  simp [readBulk, h1, readBulkWithHead, h2]

/-- C1 (amended): an absent element (bulk length `-1`) inside a multi-bulk
reply is not retained at its position — as soon as the element loop reaches
it, `readBulk`'s not-found error aborts decoding of the whole multi-bulk
reply, whatever elements remain; in particular the spec's example stream
decodes to the not-found error rather than to a three-element sequence. -/
theorem readMulti_absent_element_aborts (n : Nat) (rest : List Nat) :
    readMulti (n + 1) (asciiStr "$-1\r\n" ++ rest)
      = .error (.redis (asciiStr "Key does not exist ")) ∧
    readResponse (asciiStr "*2\r\n$1\r\na\r\n$-1\r\n")
      = .error (.redis (asciiStr "Key does not exist ")) := by
  constructor
  · have ha : asciiStr "$-1\r\n" = [36, 45, 49, 13, 10] := by decide
    rw [ha]
    show readMulti (n + 1) ((36 : Nat) :: 45 :: 49 :: 13 :: 10 :: rest)
      = .error (.redis (asciiStr "Key does not exist "))
    rw [readMulti, readBulk_absent_marker rest]
  · decide

/-- Counterexample to C1 as stated: decoding the spec's example
`*3\r\n$1\r\na\r\n$-1\r\n$1\r\nb\r\n` yields the error
`Key does not exist ` and not `[present "a", absent, present "b"]`. -/
theorem readResponse_absent_element_example :
    readResponse (asciiStr "*3\r\n$1\r\na\r\n$-1\r\n$1\r\nb\r\n")
      = .error (.redis (asciiStr "Key does not exist ")) := by decide

lemma foldl_append_eq_flatMap {α : Type} (g : α → List Nat) :
    ∀ (l : List α) (acc : List Nat),
      l.foldl (fun b s => b ++ g s) acc = acc ++ l.flatMap g
  | [], acc => by simp
  | x :: l, acc => by
    simp [List.foldl_cons, List.flatMap_cons, foldl_append_eq_flatMap g l]

/-- C2: for every operation name and argument list (arbitrary bytes,
including embedded CR LF), the frame built by `sendCommand` equals the
spec's frame: `*<len(args)+1>\r\n` then each token — the operation name
first, then each argument in order — as `$<byte length>\r\n<token>\r\n`,
with no escaping and no validation. -/
theorem encodeRequest_eq_specFrame (cmd : GoStr) (args : List GoStr) :
    encodeRequest cmd args = specRequestFrame cmd args := by
  rw [encodeRequest, specRequestFrame,
    foldl_append_eq_flatMap (fun s => [36] ++ natToDec s.length ++ crlf ++ s ++ crlf) args,
    List.flatMap_cons, Nat.add_comm]
  simp

/-- C5 exhibited on the code: an empty multi-bulk reply (`*0`, produced for a
hash key that does not exist) decodes to an empty present sequence, and
`Hgetall` then returns success (nil error) with the caller's target record
untouched — not the distinct not-found error that the claim and the
repository's own test (`redis_test.go`, key "hdne": "should be an error")
require. -/
theorem hgetall_empty_reply_succeeds :
    readResponse (asciiStr "*0\r\n") = .ok (.multi [], []) ∧
    Hgetall (asciiStr "hdne") sampleZero ⟨[some ⟨0⟩], [], [.ok (.multi [])], []⟩
      = (none, sampleZero,
         ⟨[some ⟨0⟩], [], [],
          [encodeRequest (asciiStr "HGETALL") [asciiStr "hdne"]]⟩) := by decide

/-- C6 exhibited on the code: coercing the non-numeric text "notanum" into an
int field makes `writeTo` report a conversion error, but `writeToContainer`
discards that error, leaves the field at its zero value, and returns
success. -/
theorem writeToContainer_swallows_coercion_error :
    writeTo (asciiStr "notanum") (.vi 0) = (some .parse, .vi 0) ∧
    writeToContainer [asciiStr "A", asciiStr "notanum"] [⟨asciiStr "A", .vi 0⟩]
      = (none, [⟨asciiStr "A", .vi 0⟩]) := by decide

/-- C9 exhibited on the code: for the bulk header `$abc` the length parse
fails (`strconv.Atoi` error flag set), but `readBulk` overwrites that error
with the `ioutil.ReadAll` result and returns a successful empty bulk reply
instead of a protocol error — also through `readResponse`'s fallback path. -/
theorem readBulk_unparsable_length_succeeds :
    (atoiGo (trimSpace (asciiStr "abc"))).2 = true ∧
    readBulk [] (asciiStr "$abc") = .ok ([], []) ∧
    readResponse (asciiStr "$abc\r\n") = .ok (.bulk [], []) := by decide
